import Mathlib

/-!
Shallow embedding of the `shades` shader eDSL (src/lib.rs) in Lean 4.

The Rust library builds an untyped IR (`ErasedExpr`, `ErasedScope`, `Shader`)
through a typed builder API.  We translate the data model and the builder
operations into Lean definitions; `u16` counters are modeled as `Nat`
(overflow does not occur in any property considered), `f32` literals are
modeled by their bit patterns (no claim computes with float values), `Vec`
becomes `List`, `Box` disappears (values own their subtrees), and Rust's
derived `Clone` is translated as an explicit deep-copy function.
-/

namespace Shades

/-- Bit-pattern model of an `f32` literal; the library only stores float
literals structurally and never computes with them. -/
structure F32 where
  bits : Nat
deriving DecidableEq

/-- Mirrors `enum Dim { Scalar, D2, D3, D4 }`. -/
inductive Dim where
  | Scalar
  | D2
  | D3
  | D4
deriving DecidableEq

/-- Mirrors `enum PrimType { Int(Dim), UInt(Dim), Float(Dim), Bool(Dim) }`. -/
inductive PrimType where
  | Int (d : Dim)
  | UInt (d : Dim)
  | Float (d : Dim)
  | Bool (d : Dim)
deriving DecidableEq

/-- Mirrors `struct Type { prim_ty: PrimType, array_dims: Vec<usize> }`
(named `Ty` because `Type` is reserved in Lean). -/
structure Ty where
  prim_ty : PrimType
  array_dims : List Nat
deriving DecidableEq

/-- Mirrors `enum VertexBuiltIn`. -/
inductive VertexBuiltIn where
  | VertexID
  | InstanceID
  | BaseVertex
  | BaseInstance
  | Position
  | PointSize
  | ClipDistance
deriving DecidableEq

/-- Mirrors `enum TessCtrlBuiltIn`. -/
inductive TessCtrlBuiltIn where
  | MaxPatchVerticesIn
  | PatchVerticesIn
  | PrimitiveID
  | InvocationID
  | TessellationLevelOuter
  | TessellationLevelInner
  | In
  | Out
  | Position
  | PointSize
  | ClipDistance
  | CullDistance
deriving DecidableEq

/-- Mirrors `enum TessEvalBuiltIn`. -/
inductive TessEvalBuiltIn where
  | TessCoord
  | MaxPatchVerticesIn
  | PatchVerticesIn
  | PrimitiveID
  | TessellationLevelOuter
  | TessellationLevelInner
  | In
  | Out
  | Position
  | PointSize
  | ClipDistance
  | CullDistance
deriving DecidableEq

/-- Mirrors `enum GeometryBuiltIn`. -/
inductive GeometryBuiltIn where
  | In
  | Out
  | Position
  | PointSize
  | ClipDistance
  | CullDistance
  | PrimitiveID
  | PrimitiveIDIn
  | InvocationID
  | Layer
  | ViewportIndex
deriving DecidableEq

/-- Mirrors `enum FragmentBuiltIn`. -/
inductive FragmentBuiltIn where
  | FragCoord
  | FrontFacing
  | PointCoord
  | SampleID
  | SamplePosition
  | SampleMaskIn
  | ClipDistance
  | CullDistance
  | PrimitiveID
  | Layer
  | ViewportIndex
  | FragDepth
  | SampleMask
  | HelperInvocation
deriving DecidableEq

/-- Mirrors `enum BuiltIn` (the per-stage sum). -/
inductive BuiltIn where
  | Vertex (b : VertexBuiltIn)
  | TessCtrl (b : TessCtrlBuiltIn)
  | TessEval (b : TessEvalBuiltIn)
  | Geometry (b : GeometryBuiltIn)
  | Fragment (b : FragmentBuiltIn)
deriving DecidableEq

/-- Mirrors `enum ScopedHandle`; `u16` indices become `Nat`. -/
inductive ScopedHandle where
  | BuiltIn (b : BuiltIn)
  | Global (handle : Nat)
  | FunArg (handle : Nat)
  | FunVar (subscope : Nat) (handle : Nat)
deriving DecidableEq

/-- Mirrors `enum SwizzleSelector { X, Y, Z, W }`. -/
inductive SwizzleSelector where
  | X
  | Y
  | Z
  | W
deriving DecidableEq

/-- Mirrors `enum Swizzle` (1 to 4 selectors). -/
inductive Swizzle where
  | D1 (a : SwizzleSelector)
  | D2 (a b : SwizzleSelector)
  | D3 (a b c : SwizzleSelector)
  | D4 (a b c d : SwizzleSelector)
deriving DecidableEq

/-- Mirrors `enum ErasedFunHandle` (the closed intrinsic enumeration plus
`Main` and `UserDefined`). -/
inductive ErasedFunHandle where
  | Main
  | Radians
  | Degrees
  | Sin
  | Cos
  | Tan
  | ASin
  | ACos
  | ATan
  | SinH
  | CosH
  | TanH
  | ASinH
  | ACosH
  | ATanH
  | Pow
  | Exp
  | Exp2
  | Log
  | Log2
  | Sqrt
  | InverseSqrt
  | Abs
  | Sign
  | Floor
  | Trunc
  | Round
  | RoundEven
  | Ceil
  | Fract
  | Min
  | Max
  | Clamp
  | Mix
  | Step
  | SmoothStep
  | IsNan
  | IsInf
  | FloatBitsToInt
  | IntBitsToFloat
  | UIntBitsToFloat
  | FMA
  | Frexp
  | Ldexp
  | PackUnorm2x16
  | PackSnorm2x16
  | PackUnorm4x8
  | PackSnorm4x8
  | UnpackUnorm2x16
  | UnpackSnorm2x16
  | UnpackUnorm4x8
  | UnpackSnorm4x8
  | PackHalf2x16
  | UnpackHalf2x16
  | Length
  | Distance
  | Dot
  | Cross
  | Normalize
  | FaceForward
  | Reflect
  | Refract
  | VLt
  | VLte
  | VGt
  | VGte
  | VEq
  | VNeq
  | VAny
  | VAll
  | VNot
  | UAddCarry
  | USubBorrow
  | UMulExtended
  | IMulExtended
  | BitfieldExtract
  | BitfieldInsert
  | BitfieldReverse
  | BitCount
  | FindLSB
  | FindMSB
  | EmitStreamVertex
  | EndStreamPrimitive
  | EmitVertex
  | EndPrimitive
  | DFDX
  | DFDY
  | DFDXFine
  | DFDYFine
  | DFDXCoarse
  | DFDYCoarse
  | FWidth
  | FWidthFine
  | FWidthCoarse
  | InterpolateAtCentroid
  | InterpolateAtSample
  | InterpolateAtOffset
  | Barrier
  | MemoryBarrier
  | MemoryBarrierAtomic
  | MemoryBarrierBuffer
  | MemoryBarrierShared
  | MemoryBarrierImage
  | GroupMemoryBarrier
  | AnyInvocation
  | AllInvocations
  | AllInvocationsEqual
  | UserDefined (h : Nat)

/-- Mirrors `enum ErasedExpr`.  Scalar literal payloads: `i32` as `Int`,
`u32` as `Nat`, `f32` as `F32`, `bool` as `Bool`; the fixed-arity vector
literal payloads (`[T; 2]` etc.) are nested products. -/
inductive ErasedExpr where
  | LitInt (a : Int)
  | LitUInt (a : Nat)
  | LitFloat (a : F32)
  | LitBool (a : Bool)
  | LitInt2 (a : Int × Int)
  | LitUInt2 (a : Nat × Nat)
  | LitFloat2 (a : F32 × F32)
  | LitBool2 (a : Bool × Bool)
  | LitInt3 (a : Int × Int × Int)
  | LitUInt3 (a : Nat × Nat × Nat)
  | LitFloat3 (a : F32 × F32 × F32)
  | LitBool3 (a : Bool × Bool × Bool)
  | LitInt4 (a : Int × Int × Int × Int)
  | LitUInt4 (a : Nat × Nat × Nat × Nat)
  | LitFloat4 (a : F32 × F32 × F32 × F32)
  | LitBool4 (a : Bool × Bool × Bool × Bool)
  | Array (ty : Ty) (items : List ErasedExpr)
  | MutVar (h : ScopedHandle)
  | ImmutBuiltIn (b : BuiltIn)
  | Not (e : ErasedExpr)
  | And (a b : ErasedExpr)
  | Or (a b : ErasedExpr)
  | Xor (a b : ErasedExpr)
  | BitOr (a b : ErasedExpr)
  | BitAnd (a b : ErasedExpr)
  | BitXor (a b : ErasedExpr)
  | Neg (e : ErasedExpr)
  | Add (a b : ErasedExpr)
  | Sub (a b : ErasedExpr)
  | Mul (a b : ErasedExpr)
  | Div (a b : ErasedExpr)
  | Rem (a b : ErasedExpr)
  | Shl (a b : ErasedExpr)
  | Shr (a b : ErasedExpr)
  | Eq (a b : ErasedExpr)
  | Neq (a b : ErasedExpr)
  | Lt (a b : ErasedExpr)
  | Lte (a b : ErasedExpr)
  | Gt (a b : ErasedExpr)
  | Gte (a b : ErasedExpr)
  | FunCall (h : ErasedFunHandle) (args : List ErasedExpr)
  | Swizzle (e : ErasedExpr) (sw : Swizzle)
  | Field (object : ErasedExpr) (field : ErasedExpr)
  | ArrayLookup (object : ErasedExpr) (index : ErasedExpr)


mutual

/-- Translation of the derived `Clone` for `ErasedExpr`: an explicit deep
copy of the whole tree (Rust clones every boxed child and every `Vec`). -/
def ErasedExpr.clone : ErasedExpr → ErasedExpr
  | .LitInt a => .LitInt a
  | .LitUInt a => .LitUInt a
  | .LitFloat a => .LitFloat a
  | .LitBool a => .LitBool a
  | .LitInt2 a => .LitInt2 a
  | .LitUInt2 a => .LitUInt2 a
  | .LitFloat2 a => .LitFloat2 a
  | .LitBool2 a => .LitBool2 a
  | .LitInt3 a => .LitInt3 a
  | .LitUInt3 a => .LitUInt3 a
  | .LitFloat3 a => .LitFloat3 a
  | .LitBool3 a => .LitBool3 a
  | .LitInt4 a => .LitInt4 a
  | .LitUInt4 a => .LitUInt4 a
  | .LitFloat4 a => .LitFloat4 a
  | .LitBool4 a => .LitBool4 a
  | .Array ty items => .Array ty (ErasedExpr.cloneList items)
  | .MutVar h => .MutVar h
  | .ImmutBuiltIn b => .ImmutBuiltIn b
  | .Not e => .Not e.clone
  | .And a b => .And a.clone b.clone
  | .Or a b => .Or a.clone b.clone
  | .Xor a b => .Xor a.clone b.clone
  | .BitOr a b => .BitOr a.clone b.clone
  | .BitAnd a b => .BitAnd a.clone b.clone
  | .BitXor a b => .BitXor a.clone b.clone
  | .Neg e => .Neg e.clone
  | .Add a b => .Add a.clone b.clone
  | .Sub a b => .Sub a.clone b.clone
  | .Mul a b => .Mul a.clone b.clone
  | .Div a b => .Div a.clone b.clone
  | .Rem a b => .Rem a.clone b.clone
  | .Shl a b => .Shl a.clone b.clone
  | .Shr a b => .Shr a.clone b.clone
  | .Eq a b => .Eq a.clone b.clone
  | .Neq a b => .Neq a.clone b.clone
  | .Lt a b => .Lt a.clone b.clone
  | .Lte a b => .Lte a.clone b.clone
  | .Gt a b => .Gt a.clone b.clone
  | .Gte a b => .Gte a.clone b.clone
  | .FunCall h args => .FunCall h (ErasedExpr.cloneList args)
  | .Swizzle e sw => .Swizzle e.clone sw
  | .Field object field => .Field object.clone field.clone
  | .ArrayLookup object index => .ArrayLookup object.clone index.clone

/-- Deep copy of a `Vec<ErasedExpr>` (element-wise `clone`). -/
def ErasedExpr.cloneList : List ErasedExpr → List ErasedExpr
  | [] => []
  | e :: es => e.clone :: ErasedExpr.cloneList es

end

mutual

/-- In the value semantics of the embedding, Rust's deep copy returns the
same value: `clone` is the identity on erased expression trees. -/
theorem ErasedExpr.clone_eq : (e : ErasedExpr) → e.clone = e
  | .LitInt _ => by simp [ErasedExpr.clone]
  | .LitUInt _ => by simp [ErasedExpr.clone]
  | .LitFloat _ => by simp [ErasedExpr.clone]
  | .LitBool _ => by simp [ErasedExpr.clone]
  | .LitInt2 _ => by simp [ErasedExpr.clone]
  | .LitUInt2 _ => by simp [ErasedExpr.clone]
  | .LitFloat2 _ => by simp [ErasedExpr.clone]
  | .LitBool2 _ => by simp [ErasedExpr.clone]
  | .LitInt3 _ => by simp [ErasedExpr.clone]
  | .LitUInt3 _ => by simp [ErasedExpr.clone]
  | .LitFloat3 _ => by simp [ErasedExpr.clone]
  | .LitBool3 _ => by simp [ErasedExpr.clone]
  | .LitInt4 _ => by simp [ErasedExpr.clone]
  | .LitUInt4 _ => by simp [ErasedExpr.clone]
  | .LitFloat4 _ => by simp [ErasedExpr.clone]
  | .LitBool4 _ => by simp [ErasedExpr.clone]
  | .Array ty items => by simp [ErasedExpr.clone, ErasedExpr.cloneList_eq items]
  | .MutVar _ => by simp [ErasedExpr.clone]
  | .ImmutBuiltIn _ => by simp [ErasedExpr.clone]
  | .Not e => by simp [ErasedExpr.clone, ErasedExpr.clone_eq e]
  | .And a b => by simp [ErasedExpr.clone, ErasedExpr.clone_eq a, ErasedExpr.clone_eq b]
  | .Or a b => by simp [ErasedExpr.clone, ErasedExpr.clone_eq a, ErasedExpr.clone_eq b]
  | .Xor a b => by simp [ErasedExpr.clone, ErasedExpr.clone_eq a, ErasedExpr.clone_eq b]
  | .BitOr a b => by simp [ErasedExpr.clone, ErasedExpr.clone_eq a, ErasedExpr.clone_eq b]
  | .BitAnd a b => by simp [ErasedExpr.clone, ErasedExpr.clone_eq a, ErasedExpr.clone_eq b]
  | .BitXor a b => by simp [ErasedExpr.clone, ErasedExpr.clone_eq a, ErasedExpr.clone_eq b]
  | .Neg e => by simp [ErasedExpr.clone, ErasedExpr.clone_eq e]
  | .Add a b => by simp [ErasedExpr.clone, ErasedExpr.clone_eq a, ErasedExpr.clone_eq b]
  | .Sub a b => by simp [ErasedExpr.clone, ErasedExpr.clone_eq a, ErasedExpr.clone_eq b]
  | .Mul a b => by simp [ErasedExpr.clone, ErasedExpr.clone_eq a, ErasedExpr.clone_eq b]
  | .Div a b => by simp [ErasedExpr.clone, ErasedExpr.clone_eq a, ErasedExpr.clone_eq b]
  | .Rem a b => by simp [ErasedExpr.clone, ErasedExpr.clone_eq a, ErasedExpr.clone_eq b]
  | .Shl a b => by simp [ErasedExpr.clone, ErasedExpr.clone_eq a, ErasedExpr.clone_eq b]
  | .Shr a b => by simp [ErasedExpr.clone, ErasedExpr.clone_eq a, ErasedExpr.clone_eq b]
  | .Eq a b => by simp [ErasedExpr.clone, ErasedExpr.clone_eq a, ErasedExpr.clone_eq b]
  | .Neq a b => by simp [ErasedExpr.clone, ErasedExpr.clone_eq a, ErasedExpr.clone_eq b]
  | .Lt a b => by simp [ErasedExpr.clone, ErasedExpr.clone_eq a, ErasedExpr.clone_eq b]
  | .Lte a b => by simp [ErasedExpr.clone, ErasedExpr.clone_eq a, ErasedExpr.clone_eq b]
  | .Gt a b => by simp [ErasedExpr.clone, ErasedExpr.clone_eq a, ErasedExpr.clone_eq b]
  | .Gte a b => by simp [ErasedExpr.clone, ErasedExpr.clone_eq a, ErasedExpr.clone_eq b]
  | .FunCall h args => by simp [ErasedExpr.clone, ErasedExpr.cloneList_eq args]
  | .Swizzle e sw => by simp [ErasedExpr.clone, ErasedExpr.clone_eq e]
  | .Field o f => by simp [ErasedExpr.clone, ErasedExpr.clone_eq o, ErasedExpr.clone_eq f]
  | .ArrayLookup o i => by simp [ErasedExpr.clone, ErasedExpr.clone_eq o, ErasedExpr.clone_eq i]

/-- Element-wise deep copy is the identity on expression lists. -/
theorem ErasedExpr.cloneList_eq : (es : List ErasedExpr) → ErasedExpr.cloneList es = es
  | [] => by simp [ErasedExpr.cloneList]
  | e :: es => by simp [ErasedExpr.cloneList, ErasedExpr.clone_eq e, ErasedExpr.cloneList_eq es]

end

/-- Mirrors `struct Expr<T>` with the phantom type parameter erased; only
the `erased : ErasedExpr` payload has runtime content. -/
structure Expr where
  erased : ErasedExpr

/-- Mirrors `Expr::<T>::new`. -/
def Expr.new (erased : ErasedExpr) : Expr := ⟨erased⟩

/-- Mirrors `Expr::new_builtin`: a built-in exposed as a mutable variable
reference (`MutVar(ScopedHandle::BuiltIn(..))`). -/
def Expr.new_builtin (b : BuiltIn) : Expr :=
  Expr.new (ErasedExpr.MutVar (ScopedHandle.BuiltIn b))

/-- Mirrors `Expr::new_immut_builtin`: a read-only built-in reference
(`ImmutBuiltIn(..)`). -/
def Expr.new_immut_builtin (b : BuiltIn) : Expr :=
  Expr.new (ErasedExpr.ImmutBuiltIn b)

/-- Mirrors `Expr::clone` (`Self::new(self.erased.clone())`). -/
def Expr.clone (e : Expr) : Expr := Expr.new e.erased.clone

/-- Mirrors `struct Var<T>(Expr<T>)`. -/
structure Var where
  val : Expr

/-- Mirrors `Var::new(handle)`. -/
def Var.new (handle : ScopedHandle) : Var :=
  ⟨Expr.new (ErasedExpr.MutVar handle)⟩

/-- Mirrors `Var::to_expr` (`self.0.clone()`). -/
def Var.to_expr (v : Var) : Expr := v.val.clone

/-- Mirrors `enum ErasedReturn { Void, Expr(Type, ErasedExpr) }`. -/
inductive ErasedReturn where
  | Void
  | Expr (ty : Ty) (e : ErasedExpr)

mutual

/-- Mirrors `struct ErasedScope { id: u16, instructions: Vec<ScopeInstr>,
next_var: u16 }` (a single-constructor inductive because it is mutually
recursive with `ScopeInstr`). -/
inductive ErasedScope where
  | mk (id : Nat) (instructions : List ScopeInstr) (next_var : Nat)

/-- Mirrors `enum ScopeInstr`. -/
inductive ScopeInstr where
  | VarDecl (ty : Ty) (handle : ScopedHandle) (init_value : ErasedExpr)
  | Return (r : ErasedReturn)
  | Continue
  | Break
  | If (condition : ErasedExpr) (scope : ErasedScope)
  | ElseIf (condition : ErasedExpr) (scope : ErasedScope)
  | Else (scope : ErasedScope)
  | For (init_ty : Ty) (init_handle : ScopedHandle) (init_expr : ErasedExpr)
      (condition : ErasedExpr) (post_expr : ErasedExpr) (scope : ErasedScope)
  | While (condition : ErasedExpr) (scope : ErasedScope)
  | MutateVar (var : ErasedExpr) (expr : ErasedExpr)

end

/-- Field accessor for `ErasedScope.id`. -/
def ErasedScope.id : ErasedScope → Nat
  | .mk i _ _ => i

/-- Field accessor for `ErasedScope.instructions`. -/
def ErasedScope.instructions : ErasedScope → List ScopeInstr
  | .mk _ ins _ => ins

/-- Field accessor for `ErasedScope.next_var`. -/
def ErasedScope.next_var : ErasedScope → Nat
  | .mk _ _ n => n

@[simp] theorem ErasedScope.id_mk (i : Nat) (ins : List ScopeInstr) (n : Nat) :
    (ErasedScope.mk i ins n).id = i := rfl

@[simp] theorem ErasedScope.instructions_mk (i : Nat) (ins : List ScopeInstr) (n : Nat) :
    (ErasedScope.mk i ins n).instructions = ins := rfl

@[simp] theorem ErasedScope.next_var_mk (i : Nat) (ins : List ScopeInstr) (n : Nat) :
    (ErasedScope.mk i ins n).next_var = n := rfl

/-- Mirrors `ErasedScope::new(id)`. -/
def ErasedScope.new (id : Nat) : ErasedScope := .mk id [] 0

/-- Mirrors `self.erased.instructions.push(instr)` on a scope. -/
def ErasedScope.push (s : ErasedScope) (instr : ScopeInstr) : ErasedScope :=
  .mk s.id (s.instructions ++ [instr]) s.next_var

/-- Mirrors `struct ErasedFun { args, scope, ret }`. -/
structure ErasedFun where
  args : List Ty
  scope : ErasedScope
  ret : ErasedReturn

namespace Scope

/-- Mirrors `Scope::deeper`: a fresh scope whose id is the parent's id
plus one. -/
def deeper (s : ErasedScope) : ErasedScope :=
  ErasedScope.new (s.id + 1)

/-- Mirrors `Scope::var`: reads the `next_var` counter, increments it, and
pushes a `VarDecl` whose handle pairs the scope id with the old counter;
the declared `Var` is returned.  The Rust generic `T: ToType` and the
`impl Into<Expr<T>>` conversion are supplied by the caller as `ty` and an
already-converted `Expr`. -/
def var (s : ErasedScope) (ty : Ty) (init_value : Expr) : ErasedScope × Var :=
  let n := s.next_var
  let handle := ScopedHandle.FunVar s.id n
  let s1 := ErasedScope.mk s.id s.instructions (n + 1)
  (s1.push (ScopeInstr.VarDecl ty handle init_value.erased), Var.new handle)

/-- Mirrors `Scope::leave` (pushes `Return` of the converted value). -/
def leave (s : ErasedScope) (ret : ErasedReturn) : ErasedScope :=
  s.push (ScopeInstr.Return ret)

/-- Mirrors `Scope::abort` (pushes `Return(Void)`). -/
def abort (s : ErasedScope) : ErasedScope :=
  s.push (ScopeInstr.Return ErasedReturn.Void)

/-- Mirrors `Scope::when`: runs the body on a fresh deeper scope, then
pushes `If { condition, scope }`; the `When` value it returns just borrows
the parent scope, which is the Lean result. -/
def when (s : ErasedScope) (condition : Expr) (body : ErasedScope → ErasedScope) :
    ErasedScope :=
  let sub := body (deeper s)
  s.push (ScopeInstr.If condition.erased sub)

/-- Mirrors `Scope::loop_for`: creates the deeper sub-scope, declares the
induction variable in it via `var`, evaluates the condition and iter-fold
closures on the (dereferenced) induction variable, runs the body, and
pushes the `For` instruction. -/
def loop_for (s : ErasedScope) (ty : Ty) (init_value : Expr)
    (condition : Expr → Expr) (iter_fold : Expr → Expr)
    (body : ErasedScope → Expr → ErasedScope) : ErasedScope :=
  let scope0 := deeper s
  let p := var scope0 ty init_value
  let init_var := p.2
  let cond := condition init_var.val
  let post_expr := iter_fold init_var.val
  let scope2 := body p.1 init_var.val
  s.push (ScopeInstr.For ty (ScopedHandle.FunVar scope2.id 0)
    init_var.to_expr.erased cond.erased post_expr.erased scope2)

/-- Mirrors `Scope::loop_while`. -/
def loop_while (s : ErasedScope) (condition : Expr) (body : ErasedScope → ErasedScope) :
    ErasedScope :=
  let sub := body (deeper s)
  s.push (ScopeInstr.While condition.erased sub)

/-- Mirrors `Scope::loop_continue`. -/
def loop_continue (s : ErasedScope) : ErasedScope :=
  s.push ScopeInstr.Continue

/-- Mirrors `Scope::loop_break`. -/
def loop_break (s : ErasedScope) : ErasedScope :=
  s.push ScopeInstr.Break

/-- Mirrors `Scope::set` (pushes `MutateVar`). -/
def set (s : ErasedScope) (v : Var) (value : Expr) : ErasedScope :=
  s.push (ScopeInstr.MutateVar v.to_expr.erased value.erased)

end Scope

namespace When

/-- Mirrors `When::or_else`: pushes `ElseIf` with a fresh deeper body scope
onto the parent scope held by the `When`. -/
def or_else (parent : ErasedScope) (condition : Expr)
    (body : ErasedScope → ErasedScope) : ErasedScope :=
  let sub := body (Scope.deeper parent)
  parent.push (ScopeInstr.ElseIf condition.erased sub)

/-- Mirrors `When::or`: pushes `Else` with a fresh deeper body scope. -/
def or (parent : ErasedScope) (body : ErasedScope → ErasedScope) : ErasedScope :=
  let sub := body (Scope.deeper parent)
  parent.push (ScopeInstr.Else sub)

end When

/-- Mirrors `enum ShaderDecl`. -/
inductive ShaderDecl where
  | Main (f : ErasedFun)
  | FunDef (h : Nat) (f : ErasedFun)
  | Const (h : Nat) (ty : Ty) (e : ErasedExpr)
  | In (h : Nat) (ty : Ty)
  | Out (h : Nat) (ty : Ty)

/-- Mirrors `struct Shader { decls, next_fun_handle, next_global_handle }`. -/
structure Shader where
  decls : List ShaderDecl
  next_fun_handle : Nat
  next_global_handle : Nat

namespace Shader

/-- Mirrors `Shader::new`. -/
def new : Shader := ⟨[], 0, 0⟩

/-- Mirrors `Shader::fun` (named `fn` because `fun` is reserved in Lean):
takes the already-built function definition (the result of the closure's
`build_fn`), allocates the next function handle, appends `FunDef`, and
returns the typed `UserDefined` handle. -/
def fn (sh : Shader) (fundef : ErasedFun) : Shader × ErasedFunHandle :=
  let handle := sh.next_fun_handle
  (⟨sh.decls ++ [ShaderDecl.FunDef handle fundef], handle + 1, sh.next_global_handle⟩,
    ErasedFunHandle.UserDefined handle)

/-- Mirrors `Shader::main_fun`: appends `Main` (no counter is touched) and
returns the sentinel `Main` handle. -/
def main_fun (sh : Shader) (fundef : ErasedFun) : Shader × ErasedFunHandle :=
  (⟨sh.decls ++ [ShaderDecl.Main fundef], sh.next_fun_handle, sh.next_global_handle⟩,
    ErasedFunHandle.Main)

/-- Mirrors `Shader::constant`: allocates the next global handle, appends
`Const`, and returns a `Var` at `ScopedHandle::Global`. -/
def constant (sh : Shader) (ty : Ty) (e : Expr) : Shader × Var :=
  let handle := sh.next_global_handle
  (⟨sh.decls ++ [ShaderDecl.Const handle ty e.erased], sh.next_fun_handle, handle + 1⟩,
    Var.new (ScopedHandle.Global handle))

/-- Mirrors `Shader::input`. -/
def input (sh : Shader) (ty : Ty) : Shader × Var :=
  let handle := sh.next_global_handle
  (⟨sh.decls ++ [ShaderDecl.In handle ty], sh.next_fun_handle, handle + 1⟩,
    Var.new (ScopedHandle.Global handle))

/-- Mirrors `Shader::output`. -/
def output (sh : Shader) (ty : Ty) : Shader × Var :=
  let handle := sh.next_global_handle
  (⟨sh.decls ++ [ShaderDecl.Out handle ty], sh.next_fun_handle, handle + 1⟩,
    Var.new (ScopedHandle.Global handle))

end Shader

/-- One host-level registration call on a `Shader` (the argument of each
call, already lowered to the erased forms the method stores). -/
inductive ShaderOp where
  | input (ty : Ty)
  | output (ty : Ty)
  | constant (ty : Ty) (e : ErasedExpr)
  | fnDef (f : ErasedFun)
  | mainFun (f : ErasedFun)

/-- Interpretation of one registration call by the corresponding
`Shader` method. -/
def Shader.runOp (sh : Shader) : ShaderOp → Shader
  | .input ty => (Shader.input sh ty).1
  | .output ty => (Shader.output sh ty).1
  | .constant ty e => (Shader.constant sh ty ⟨e⟩).1
  | .fnDef f => (Shader.fn sh f).1
  | .mainFun f => (Shader.main_fun sh f).1

/-- A host builder closure as the sequence of registration calls it makes,
interpreted left to right. -/
def Shader.runOps (sh : Shader) : List ShaderOp → Shader
  | [] => sh
  | op :: ops => Shader.runOps (sh.runOp op) ops

/-- The `In` declarations produced by a block of `input` calls, with global
handles counting up from `g`. -/
def inDecls : Nat → List Ty → List ShaderDecl
  | _, [] => []
  | g, ty :: tys => ShaderDecl.In g ty :: inDecls (g + 1) tys

/-- The `Out` declarations produced by a block of `output` calls. -/
def outDecls : Nat → List Ty → List ShaderDecl
  | _, [] => []
  | g, ty :: tys => ShaderDecl.Out g ty :: outDecls (g + 1) tys

/-- The `Const` declarations produced by a block of `constant` calls. -/
def constDecls : Nat → List (Ty × ErasedExpr) → List ShaderDecl
  | _, [] => []
  | g, (ty, e) :: rest => ShaderDecl.Const g ty e :: constDecls (g + 1) rest

/-- The `FunDef` declarations produced by a block of `fun` calls, with
function handles counting up from `h`. -/
def funDecls : Nat → List ErasedFun → List ShaderDecl
  | _, [] => []
  | h, f :: fs => ShaderDecl.FunDef h f :: funDecls (h + 1) fs

/-- Whether a top-level declaration is the distinguished `Main`. -/
def ShaderDecl.isMain : ShaderDecl → Bool
  | .Main _ => true
  | _ => false

/-- Number of `Main` declarations in a declaration list. -/
def mainCount (ds : List ShaderDecl) : Nat :=
  (ds.filter ShaderDecl.isMain).length

/-- Whether a registration call is a `main_fun` call. -/
def ShaderOp.isMainFun : ShaderOp → Bool
  | .mainFun _ => true
  | _ => false

/-- The ten overloaded binary operators of the expression layer
(`impl_binop_Expr` covers the first eight, `impl_binshift_Expr` the two
shifts; both macros expand to the same six constructions per operator). -/
inductive BinOp where
  | Add
  | Sub
  | Mul
  | Div
  | Rem
  | BitOr
  | BitAnd
  | BitXor
  | Shl
  | Shr

/-- The untyped node built for each overloaded binary operator
(`ErasedExpr::$op(..)` in the macro bodies). -/
def BinOp.node : BinOp → ErasedExpr → ErasedExpr → ErasedExpr
  | .Add => ErasedExpr.Add
  | .Sub => ErasedExpr.Sub
  | .Mul => ErasedExpr.Mul
  | .Div => ErasedExpr.Div
  | .Rem => ErasedExpr.Rem
  | .BitOr => ErasedExpr.BitOr
  | .BitAnd => ErasedExpr.BitAnd
  | .BitXor => ErasedExpr.BitXor
  | .Shl => ErasedExpr.Shl
  | .Shr => ErasedExpr.Shr

/-- A raw host value usable as an automatically lifted right operand:
the scalar kinds and the `V2`/`V3`/`V4` vector kinds over them. -/
inductive RawValue where
  | int (a : Int)
  | uint (a : Nat)
  | float (a : F32)
  | bool (a : Bool)
  | int2 (a : Int × Int)
  | uint2 (a : Nat × Nat)
  | float2 (a : F32 × F32)
  | bool2 (a : Bool × Bool)
  | int3 (a : Int × Int × Int)
  | uint3 (a : Nat × Nat × Nat)
  | float3 (a : F32 × F32 × F32)
  | bool3 (a : Bool × Bool × Bool)
  | int4 (a : Int × Int × Int × Int)
  | uint4 (a : Nat × Nat × Nat × Nat)
  | float4 (a : F32 × F32 × F32 × F32)
  | bool4 (a : Bool × Bool × Bool × Bool)

/-- Mirrors the `From<T> for Expr<T>` impls (`impl_From_Expr_scalar` and
`impl_From_Expr_vn`): explicit literal lifting `lit(v)`. -/
def Expr.fromRaw : RawValue → Expr
  | .int a => Expr.new (ErasedExpr.LitInt a)
  | .uint a => Expr.new (ErasedExpr.LitUInt a)
  | .float a => Expr.new (ErasedExpr.LitFloat a)
  | .bool a => Expr.new (ErasedExpr.LitBool a)
  | .int2 a => Expr.new (ErasedExpr.LitInt2 a)
  | .uint2 a => Expr.new (ErasedExpr.LitUInt2 a)
  | .float2 a => Expr.new (ErasedExpr.LitFloat2 a)
  | .bool2 a => Expr.new (ErasedExpr.LitBool2 a)
  | .int3 a => Expr.new (ErasedExpr.LitInt3 a)
  | .uint3 a => Expr.new (ErasedExpr.LitUInt3 a)
  | .float3 a => Expr.new (ErasedExpr.LitFloat3 a)
  | .bool3 a => Expr.new (ErasedExpr.LitBool3 a)
  | .int4 a => Expr.new (ErasedExpr.LitInt4 a)
  | .uint4 a => Expr.new (ErasedExpr.LitUInt4 a)
  | .float4 a => Expr.new (ErasedExpr.LitFloat4 a)
  | .bool4 a => Expr.new (ErasedExpr.LitBool4 a)

/-- Mirrors `Expr<A> op Expr<B>` for owned self and owned rhs:
`ErasedExpr::$op(Box::new(self.erased), Box::new(rhs.erased))`. -/
def binopOwnOwn (op : BinOp) (a rhs : Expr) : Expr :=
  Expr.new (op.node a.erased rhs.erased)

/-- Mirrors `Expr<A> op &Expr<B>` (owned self, borrowed rhs): the rhs
subtree is cloned. -/
def binopOwnRef (op : BinOp) (a rhs : Expr) : Expr :=
  Expr.new (op.node a.erased rhs.erased.clone)

/-- Mirrors `&Expr<A> op Expr<B>` (borrowed self, owned rhs): the self
subtree is cloned. -/
def binopRefOwn (op : BinOp) (a rhs : Expr) : Expr :=
  Expr.new (op.node a.erased.clone rhs.erased)

/-- Mirrors `&Expr<A> op &Expr<B>`: both subtrees are cloned. -/
def binopRefRef (op : BinOp) (a rhs : Expr) : Expr :=
  Expr.new (op.node a.erased.clone rhs.erased.clone)

/-- Mirrors `Expr<A> op b` for a raw host value `b`: the operand is lifted
with `Expr::from` and then combined as in the owned-owned case. -/
def binopOwnLift (op : BinOp) (a : Expr) (b : RawValue) : Expr :=
  let rhs := Expr.fromRaw b
  Expr.new (op.node a.erased rhs.erased)

/-- Mirrors `&Expr<A> op b` for a raw host value `b`: lift, then combine
with the cloned self subtree. -/
def binopRefLift (op : BinOp) (a : Expr) (b : RawValue) : Expr :=
  let rhs := Expr.fromRaw b
  Expr.new (op.node a.erased.clone rhs.erased)

/-- Mirrors `struct VertexShaderEnv` (phantom element types dropped). -/
structure VertexShaderEnv where
  vertex_id : Expr
  instance_id : Expr
  base_vertex : Expr
  base_instance : Expr
  position : Var
  point_size : Var
  clip_distance : Var

/-- Mirrors `VertexShaderEnv::new`. -/
def VertexShaderEnv.new : VertexShaderEnv where
  vertex_id := Expr.new_immut_builtin (BuiltIn.Vertex VertexBuiltIn.VertexID)
  instance_id := Expr.new_immut_builtin (BuiltIn.Vertex VertexBuiltIn.InstanceID)
  base_vertex := Expr.new_immut_builtin (BuiltIn.Vertex VertexBuiltIn.BaseVertex)
  base_instance := Expr.new_immut_builtin (BuiltIn.Vertex VertexBuiltIn.BaseInstance)
  position := ⟨Expr.new_builtin (BuiltIn.Vertex VertexBuiltIn.Position)⟩
  point_size := ⟨Expr.new_builtin (BuiltIn.Vertex VertexBuiltIn.PointSize)⟩
  clip_distance := ⟨Expr.new_builtin (BuiltIn.Vertex VertexBuiltIn.ClipDistance)⟩

/-- Mirrors `struct TessCtrlShaderEnv`. -/
structure TessCtrlShaderEnv where
  max_patch_vertices_in : Expr
  patch_vertices_in : Expr
  primitive_id : Expr
  invocation_id : Expr
  input : Expr
  tess_level_outer : Var
  tess_level_inner : Var
  output : Var

/-- Mirrors `TessCtrlShaderEnv::new`. -/
def TessCtrlShaderEnv.new : TessCtrlShaderEnv where
  max_patch_vertices_in :=
    Expr.new_immut_builtin (BuiltIn.TessCtrl TessCtrlBuiltIn.MaxPatchVerticesIn)
  patch_vertices_in :=
    Expr.new_immut_builtin (BuiltIn.TessCtrl TessCtrlBuiltIn.PatchVerticesIn)
  primitive_id := Expr.new_immut_builtin (BuiltIn.TessCtrl TessCtrlBuiltIn.PrimitiveID)
  invocation_id := Expr.new_immut_builtin (BuiltIn.TessCtrl TessCtrlBuiltIn.InvocationID)
  input := Expr.new_immut_builtin (BuiltIn.TessCtrl TessCtrlBuiltIn.In)
  tess_level_outer :=
    Var.new (ScopedHandle.BuiltIn (BuiltIn.TessCtrl TessCtrlBuiltIn.TessellationLevelOuter))
  tess_level_inner :=
    Var.new (ScopedHandle.BuiltIn (BuiltIn.TessCtrl TessCtrlBuiltIn.TessellationLevelInner))
  output := Var.new (ScopedHandle.BuiltIn (BuiltIn.TessCtrl TessCtrlBuiltIn.Out))

/-- Mirrors `struct TessEvalShaderEnv`. -/
structure TessEvalShaderEnv where
  patch_vertices_in : Expr
  primitive_id : Expr
  tess_coord : Expr
  tess_level_outer : Expr
  tess_level_inner : Expr
  input : Expr
  position : Var
  point_size : Var
  clip_distance : Var
  cull_distance : Var

/-- Mirrors `TessEvalShaderEnv::new` exactly as written in the source; in
particular `cull_distance` is initialized against the `ClipDistance`
built-in, as the code does. -/
def TessEvalShaderEnv.new : TessEvalShaderEnv where
  patch_vertices_in :=
    Expr.new_immut_builtin (BuiltIn.TessEval TessEvalBuiltIn.PatchVerticesIn)
  primitive_id := Expr.new_immut_builtin (BuiltIn.TessEval TessEvalBuiltIn.PrimitiveID)
  tess_coord := Expr.new_immut_builtin (BuiltIn.TessEval TessEvalBuiltIn.TessCoord)
  tess_level_outer :=
    Expr.new_immut_builtin (BuiltIn.TessEval TessEvalBuiltIn.TessellationLevelOuter)
  tess_level_inner :=
    Expr.new_immut_builtin (BuiltIn.TessEval TessEvalBuiltIn.TessellationLevelInner)
  input := Expr.new_immut_builtin (BuiltIn.TessEval TessEvalBuiltIn.In)
  position := Var.new (ScopedHandle.BuiltIn (BuiltIn.TessEval TessEvalBuiltIn.Position))
  point_size := Var.new (ScopedHandle.BuiltIn (BuiltIn.TessEval TessEvalBuiltIn.PointSize))
  clip_distance :=
    Var.new (ScopedHandle.BuiltIn (BuiltIn.TessEval TessEvalBuiltIn.ClipDistance))
  cull_distance :=
    Var.new (ScopedHandle.BuiltIn (BuiltIn.TessEval TessEvalBuiltIn.ClipDistance))

/-- Mirrors `struct GeometryShaderEnv`. -/
structure GeometryShaderEnv where
  primitive_id_in : Expr
  invocation_id : Expr
  input : Expr
  position : Var
  point_size : Var
  clip_distance : Var
  cull_distance : Var
  primitive_id : Var
  layer : Var
  viewport_index : Var

/-- Mirrors `GeometryShaderEnv::new`. -/
def GeometryShaderEnv.new : GeometryShaderEnv where
  primitive_id_in :=
    Expr.new_immut_builtin (BuiltIn.Geometry GeometryBuiltIn.PrimitiveIDIn)
  invocation_id := Expr.new_immut_builtin (BuiltIn.Geometry GeometryBuiltIn.InvocationID)
  input := Expr.new_immut_builtin (BuiltIn.Geometry GeometryBuiltIn.In)
  position := Var.new (ScopedHandle.BuiltIn (BuiltIn.Geometry GeometryBuiltIn.Position))
  point_size := Var.new (ScopedHandle.BuiltIn (BuiltIn.Geometry GeometryBuiltIn.PointSize))
  clip_distance :=
    Var.new (ScopedHandle.BuiltIn (BuiltIn.Geometry GeometryBuiltIn.ClipDistance))
  cull_distance :=
    Var.new (ScopedHandle.BuiltIn (BuiltIn.Geometry GeometryBuiltIn.CullDistance))
  primitive_id :=
    Var.new (ScopedHandle.BuiltIn (BuiltIn.Geometry GeometryBuiltIn.PrimitiveID))
  layer := Var.new (ScopedHandle.BuiltIn (BuiltIn.Geometry GeometryBuiltIn.Layer))
  viewport_index :=
    Var.new (ScopedHandle.BuiltIn (BuiltIn.Geometry GeometryBuiltIn.ViewportIndex))

/-- Mirrors `struct FragmentShaderEnv`. -/
structure FragmentShaderEnv where
  frag_coord : Expr
  front_facing : Expr
  clip_distance : Expr
  cull_distance : Expr
  point_coord : Expr
  primitive_id : Expr
  sample_id : Expr
  sample_position : Expr
  sample_mask_in : Expr
  layer : Expr
  viewport_index : Expr
  helper_invocation : Expr
  frag_depth : Var
  sample_mask : Var

/-- Mirrors `FragmentShaderEnv::new` exactly as written: every input field
goes through `Expr::new_builtin` (the `MutVar` form), not
`new_immut_builtin`. -/
def FragmentShaderEnv.new : FragmentShaderEnv where
  frag_coord := Expr.new_builtin (BuiltIn.Fragment FragmentBuiltIn.FragCoord)
  front_facing := Expr.new_builtin (BuiltIn.Fragment FragmentBuiltIn.FrontFacing)
  clip_distance := Expr.new_builtin (BuiltIn.Fragment FragmentBuiltIn.ClipDistance)
  cull_distance := Expr.new_builtin (BuiltIn.Fragment FragmentBuiltIn.CullDistance)
  point_coord := Expr.new_builtin (BuiltIn.Fragment FragmentBuiltIn.PointCoord)
  primitive_id := Expr.new_builtin (BuiltIn.Fragment FragmentBuiltIn.PrimitiveID)
  sample_id := Expr.new_builtin (BuiltIn.Fragment FragmentBuiltIn.SampleID)
  sample_position := Expr.new_builtin (BuiltIn.Fragment FragmentBuiltIn.SamplePosition)
  sample_mask_in := Expr.new_builtin (BuiltIn.Fragment FragmentBuiltIn.SampleMaskIn)
  layer := Expr.new_builtin (BuiltIn.Fragment FragmentBuiltIn.Layer)
  viewport_index := Expr.new_builtin (BuiltIn.Fragment FragmentBuiltIn.ViewportIndex)
  helper_invocation := Expr.new_builtin (BuiltIn.Fragment FragmentBuiltIn.HelperInvocation)
  frag_depth := Var.new (ScopedHandle.BuiltIn (BuiltIn.Fragment FragmentBuiltIn.FragDepth))
  sample_mask := Var.new (ScopedHandle.BuiltIn (BuiltIn.Fragment FragmentBuiltIn.SampleMask))

/-- The component letters accepted by the swizzle surface syntax
(`x`/`y`/`z`/`w` positions and their `r`/`g`/`b`/`a` color aliases). -/
inductive SwComponent where
  | x
  | r
  | y
  | g
  | z
  | b
  | w
  | a

/-- Mirrors the selector-extraction table of the swizzle surface syntax
exactly as written in the source: note that both `w` and `a` are mapped to
`SwizzleSelector::Z` there. -/
def sw_extract : SwComponent → SwizzleSelector
  | .x => SwizzleSelector.X
  | .r => SwizzleSelector.X
  | .y => SwizzleSelector.Y
  | .g => SwizzleSelector.Y
  | .z => SwizzleSelector.Z
  | .b => SwizzleSelector.Z
  | .w => SwizzleSelector.Z
  | .a => SwizzleSelector.Z

/-- Mirrors the one-letter form of the swizzle surface syntax composed with
the `Swizzlable<SwizzleSelector>` impls: `e.swizzle(sw_extract(c))` builds
`Swizzle(clone(erased(e)), D1(selector))`. -/
def swD1 (e : Expr) (c : SwComponent) : Expr :=
  Expr.new (ErasedExpr.Swizzle e.erased.clone (Swizzle.D1 (sw_extract c)))

/-- The scope states a host closure can produce starting from
`Scope::new(i)` using the public `Scope` API.  Every instruction-pushing
method has a constructor; each block-forming constructor requires its
sub-scope to be itself buildable at depth `i + 1`, because the API hands
the body closure a scope created by `deeper` (id `i + 1`) and the closure
can only apply the same API to it. -/
inductive Builds : Nat → ErasedScope → Prop where
  | new (i : Nat) : Builds i (ErasedScope.new i)
  | var (i : Nat) (s : ErasedScope) (ty : Ty) (init : Expr) (h : Builds i s) :
      Builds i (Scope.var s ty init).1
  | leave (i : Nat) (s : ErasedScope) (r : ErasedReturn) (h : Builds i s) :
      Builds i (Scope.leave s r)
  | loopContinue (i : Nat) (s : ErasedScope) (h : Builds i s) :
      Builds i (Scope.loop_continue s)
  | loopBreak (i : Nat) (s : ErasedScope) (h : Builds i s) :
      Builds i (Scope.loop_break s)
  | setVar (i : Nat) (s : ErasedScope) (v : Var) (e : Expr) (h : Builds i s) :
      Builds i (Scope.set s v e)
  | ifInstr (i : Nat) (s : ErasedScope) (c : ErasedExpr) (sub : ErasedScope)
      (h : Builds i s) (hsub : Builds (i + 1) sub) :
      Builds i (s.push (ScopeInstr.If c sub))
  | elseIfInstr (i : Nat) (s : ErasedScope) (c : ErasedExpr) (sub : ErasedScope)
      (h : Builds i s) (hsub : Builds (i + 1) sub) :
      Builds i (s.push (ScopeInstr.ElseIf c sub))
  | elseInstr (i : Nat) (s : ErasedScope) (sub : ErasedScope)
      (h : Builds i s) (hsub : Builds (i + 1) sub) :
      Builds i (s.push (ScopeInstr.Else sub))
  | forInstr (i : Nat) (s : ErasedScope) (ty : Ty) (ih : ScopedHandle)
      (ie c pe : ErasedExpr) (sub : ErasedScope)
      (h : Builds i s) (hsub : Builds (i + 1) sub) :
      Builds i (s.push (ScopeInstr.For ty ih ie c pe sub))
  | whileInstr (i : Nat) (s : ErasedScope) (c : ErasedExpr) (sub : ErasedScope)
      (h : Builds i s) (hsub : Builds (i + 1) sub) :
      Builds i (s.push (ScopeInstr.While c sub))

/-- The sub-scopes stored directly inside one instruction. -/
def ScopeInstr.subscopes : ScopeInstr → List ErasedScope
  | .If _ sc => [sc]
  | .ElseIf _ sc => [sc]
  | .Else sc => [sc]
  | .For _ _ _ _ _ sc => [sc]
  | .While _ sc => [sc]
  | _ => []

/-- `sub` is the body scope of some instruction recorded in `s`. -/
def DirectNested (sub s : ErasedScope) : Prop :=
  ∃ instr, instr ∈ s.instructions ∧ sub ∈ instr.subscopes

/-- Transitive closure of `DirectNested`: `sub` occurs somewhere inside the
scope tree of `s`. -/
inductive Nested : ErasedScope → ErasedScope → Prop where
  | direct (sub s : ErasedScope) (h : DirectNested sub s) : Nested sub s
  | trans (sub mid s : ErasedScope) (hmid : DirectNested mid s)
      (hsub : Nested sub mid) : Nested sub s

/-- A scope buildable at depth `i` has id `i`: no API call changes a
scope's id. -/
theorem Builds.id_eq {i : Nat} {s : ErasedScope} (h : Builds i s) : s.id = i := by
  induction h with
  | new i => rfl
  | var i s ty init h ihh => simpa [Scope.var, ErasedScope.push] using ihh
  | leave i s r h ihh => simpa [Scope.leave, ErasedScope.push] using ihh
  | loopContinue i s h ihh => simpa [Scope.loop_continue, ErasedScope.push] using ihh
  | loopBreak i s h ihh => simpa [Scope.loop_break, ErasedScope.push] using ihh
  | setVar i s v e h ihh => simpa [Scope.set, ErasedScope.push] using ihh
  | ifInstr i s c sub h hsub ihh ihsub => simpa [ErasedScope.push] using ihh
  | elseIfInstr i s c sub h hsub ihh ihsub => simpa [ErasedScope.push] using ihh
  | elseInstr i s sub h hsub ihh ihsub => simpa [ErasedScope.push] using ihh
  | forInstr i s ty ih ie c pe sub h hsub ihh ihsub => simpa [ErasedScope.push] using ihh
  | whileInstr i s c sub h hsub ihh ihsub => simpa [ErasedScope.push] using ihh

/-- Every scope directly nested in a buildable scope is buildable one
level deeper. -/
theorem Builds.direct_nested {i : Nat} {s sub : ErasedScope} (h : Builds i s)
    (hn : DirectNested sub s) : Builds (i + 1) sub := by
  induction h with
  | new i =>
    rcases hn with ⟨instr, hmem, _⟩
    simp [ErasedScope.new] at hmem
  | var i s ty init h ihh =>
    rcases hn with ⟨instr, hmem, hsc⟩
    simp [Scope.var, ErasedScope.push] at hmem
    rcases hmem with hmem | rfl
    · exact ihh ⟨instr, hmem, hsc⟩
    · simp [ScopeInstr.subscopes] at hsc
  | leave i s r h ihh =>
    rcases hn with ⟨instr, hmem, hsc⟩
    simp [Scope.leave, ErasedScope.push] at hmem
    rcases hmem with hmem | rfl
    · exact ihh ⟨instr, hmem, hsc⟩
    · simp [ScopeInstr.subscopes] at hsc
  | loopContinue i s h ihh =>
    rcases hn with ⟨instr, hmem, hsc⟩
    simp [Scope.loop_continue, ErasedScope.push] at hmem
    rcases hmem with hmem | rfl
    · exact ihh ⟨instr, hmem, hsc⟩
    · simp [ScopeInstr.subscopes] at hsc
  | loopBreak i s h ihh =>
    rcases hn with ⟨instr, hmem, hsc⟩
    simp [Scope.loop_break, ErasedScope.push] at hmem
    rcases hmem with hmem | rfl
    · exact ihh ⟨instr, hmem, hsc⟩
    · simp [ScopeInstr.subscopes] at hsc
  | setVar i s v e h ihh =>
    rcases hn with ⟨instr, hmem, hsc⟩
    simp [Scope.set, ErasedScope.push] at hmem
    rcases hmem with hmem | rfl
    · exact ihh ⟨instr, hmem, hsc⟩
    · simp [ScopeInstr.subscopes] at hsc
  | ifInstr i s c sub' h hsub ihh ihsub =>
    rcases hn with ⟨instr, hmem, hsc⟩
    simp [ErasedScope.push] at hmem
    rcases hmem with hmem | rfl
    · exact ihh ⟨instr, hmem, hsc⟩
    · simp [ScopeInstr.subscopes] at hsc
      exact hsc ▸ hsub
  | elseIfInstr i s c sub' h hsub ihh ihsub =>
    rcases hn with ⟨instr, hmem, hsc⟩
    simp [ErasedScope.push] at hmem
    rcases hmem with hmem | rfl
    · exact ihh ⟨instr, hmem, hsc⟩
    · simp [ScopeInstr.subscopes] at hsc
      exact hsc ▸ hsub
  | elseInstr i s sub' h hsub ihh ihsub =>
    rcases hn with ⟨instr, hmem, hsc⟩
    simp [ErasedScope.push] at hmem
    rcases hmem with hmem | rfl
    · exact ihh ⟨instr, hmem, hsc⟩
    · simp [ScopeInstr.subscopes] at hsc
      exact hsc ▸ hsub
  | forInstr i s ty ih ie c pe sub' h hsub ihh ihsub =>
    rcases hn with ⟨instr, hmem, hsc⟩
    simp [ErasedScope.push] at hmem
    rcases hmem with hmem | rfl
    · exact ihh ⟨instr, hmem, hsc⟩
    · simp [ScopeInstr.subscopes] at hsc
      exact hsc ▸ hsub
  | whileInstr i s c sub' h hsub ihh ihsub =>
    rcases hn with ⟨instr, hmem, hsc⟩
    simp [ErasedScope.push] at hmem
    rcases hmem with hmem | rfl
    · exact ihh ⟨instr, hmem, hsc⟩
    · simp [ScopeInstr.subscopes] at hsc
      exact hsc ▸ hsub

/-- Any scope nested anywhere inside a buildable scope has a strictly
larger id. -/
theorem Builds.nested_id_lt {s sub : ErasedScope} (hn : Nested sub s) :
    ∀ i, Builds i s → s.id < sub.id := by
  induction hn with
  | direct a h =>
    intro i hb
    have hsub := hb.direct_nested h
    have h1 := hb.id_eq
    have h2 := hsub.id_eq
    omega
  | trans a b hmid hsub ihsub =>
    intro i hb
    have hmidb := hb.direct_nested hmid
    have h1 := hb.id_eq
    have h2 := hmidb.id_eq
    have h3 := ihsub (i + 1) hmidb
    omega

/-- Body closures built from the API preserve the id of the scope they are
handed; `Scope.when` then satisfies the `ifInstr` shape of `Builds`. -/
theorem Builds.when {i : Nat} {s : ErasedScope} (c : Expr)
    (body : ErasedScope → ErasedScope) (h : Builds i s)
    (hbody : ∀ t, Builds (i + 1) t → Builds (i + 1) (body t)) :
    Builds i (Scope.when s c body) := by
  have hid : s.id = i := h.id_eq
  have hsub : Builds (i + 1) (body (Scope.deeper s)) := by
    apply hbody
    have : Scope.deeper s = ErasedScope.new (i + 1) := by
      simp [Scope.deeper, hid]
    exact this ▸ Builds.new (i + 1)
  exact Builds.ifInstr i s c.erased (body (Scope.deeper s)) h hsub

/-- `When.or_else` stays inside the `Builds` relation. -/
theorem Builds.or_else {i : Nat} {s : ErasedScope} (c : Expr)
    (body : ErasedScope → ErasedScope) (h : Builds i s)
    (hbody : ∀ t, Builds (i + 1) t → Builds (i + 1) (body t)) :
    Builds i (When.or_else s c body) := by
  have hid : s.id = i := h.id_eq
  have hsub : Builds (i + 1) (body (Scope.deeper s)) := by
    apply hbody
    have : Scope.deeper s = ErasedScope.new (i + 1) := by
      simp [Scope.deeper, hid]
    exact this ▸ Builds.new (i + 1)
  exact Builds.elseIfInstr i s c.erased (body (Scope.deeper s)) h hsub

/-- `When.or` stays inside the `Builds` relation. -/
theorem Builds.or {i : Nat} {s : ErasedScope}
    (body : ErasedScope → ErasedScope) (h : Builds i s)
    (hbody : ∀ t, Builds (i + 1) t → Builds (i + 1) (body t)) :
    Builds i (When.or s body) := by
  have hid : s.id = i := h.id_eq
  have hsub : Builds (i + 1) (body (Scope.deeper s)) := by
    apply hbody
    have : Scope.deeper s = ErasedScope.new (i + 1) := by
      simp [Scope.deeper, hid]
    exact this ▸ Builds.new (i + 1)
  exact Builds.elseInstr i s (body (Scope.deeper s)) h hsub

/-- `Scope.loop_while` stays inside the `Builds` relation. -/
theorem Builds.loop_while {i : Nat} {s : ErasedScope} (c : Expr)
    (body : ErasedScope → ErasedScope) (h : Builds i s)
    (hbody : ∀ t, Builds (i + 1) t → Builds (i + 1) (body t)) :
    Builds i (Scope.loop_while s c body) := by
  have hid : s.id = i := h.id_eq
  have hsub : Builds (i + 1) (body (Scope.deeper s)) := by
    apply hbody
    have : Scope.deeper s = ErasedScope.new (i + 1) := by
      simp [Scope.deeper, hid]
    exact this ▸ Builds.new (i + 1)
  exact Builds.whileInstr i s c.erased (body (Scope.deeper s)) h hsub

/-- `Scope.loop_for` stays inside the `Builds` relation: the sub-scope is
`deeper` followed by the induction `var` and then the body. -/
theorem Builds.loop_for {i : Nat} {s : ErasedScope} (ty : Ty) (init : Expr)
    (condition iter_fold : Expr → Expr) (body : ErasedScope → Expr → ErasedScope)
    (h : Builds i s)
    (hbody : ∀ t v, Builds (i + 1) t → Builds (i + 1) (body t v)) :
    Builds i (Scope.loop_for s ty init condition iter_fold body) := by
  have hid : s.id = i := h.id_eq
  have hdeep : Scope.deeper s = ErasedScope.new (i + 1) := by
    simp [Scope.deeper, hid]
  have hvar : Builds (i + 1) (Scope.var (Scope.deeper s) ty init).1 :=
    Builds.var (i + 1) (Scope.deeper s) ty init (hdeep ▸ Builds.new (i + 1))
  have hsub := hbody (Scope.var (Scope.deeper s) ty init).1
    (Scope.var (Scope.deeper s) ty init).2.val hvar
  exact Builds.forInstr i s ty _ _ _ _ _ h hsub

theorem Shader.runOps_append (sh : Shader) (a b : List ShaderOp) :
    Shader.runOps sh (a ++ b) = Shader.runOps (Shader.runOps sh a) b := by
  induction a generalizing sh with
  | nil => simp [Shader.runOps]
  | cons op ops ihh => simp [Shader.runOps, ihh]

/-- Running a block of `input` calls appends the corresponding `In`
declarations and advances the global counter by the block length. -/
theorem Shader.runOps_inputs (sh : Shader) (tys : List Ty) :
    Shader.runOps sh (tys.map ShaderOp.input) =
      ⟨sh.decls ++ inDecls sh.next_global_handle tys, sh.next_fun_handle,
        sh.next_global_handle + tys.length⟩ := by
  induction tys generalizing sh with
  | nil => simp [Shader.runOps, inDecls]
  | cons ty tys ihh =>
    simp only [List.map_cons, Shader.runOps, Shader.runOp, Shader.input]
    rw [ihh]
    simp [inDecls, Shader.mk.injEq]
    omega

/-- Running a block of `output` calls appends the corresponding `Out`
declarations and advances the global counter by the block length. -/
theorem Shader.runOps_outputs (sh : Shader) (tys : List Ty) :
    Shader.runOps sh (tys.map ShaderOp.output) =
      ⟨sh.decls ++ outDecls sh.next_global_handle tys, sh.next_fun_handle,
        sh.next_global_handle + tys.length⟩ := by
  induction tys generalizing sh with
  | nil => simp [Shader.runOps, outDecls]
  | cons ty tys ihh =>
    simp only [List.map_cons, Shader.runOps, Shader.runOp, Shader.output]
    rw [ihh]
    simp [outDecls, Shader.mk.injEq]
    omega

/-- Running a block of `constant` calls appends the corresponding `Const`
declarations and advances the global counter by the block length. -/
theorem Shader.runOps_constants (sh : Shader) (cs : List (Ty × ErasedExpr)) :
    Shader.runOps sh (cs.map fun p => ShaderOp.constant p.1 p.2) =
      ⟨sh.decls ++ constDecls sh.next_global_handle cs, sh.next_fun_handle,
        sh.next_global_handle + cs.length⟩ := by
  induction cs generalizing sh with
  | nil => simp [Shader.runOps, constDecls]
  | cons p cs ihh =>
    simp only [List.map_cons, Shader.runOps, Shader.runOp, Shader.constant]
    rw [ihh]
    simp [constDecls, Shader.mk.injEq]
    omega

/-- Running a block of `fun` calls appends the corresponding `FunDef`
declarations and advances the function counter by the block length. -/
theorem Shader.runOps_funs (sh : Shader) (fs : List ErasedFun) :
    Shader.runOps sh (fs.map ShaderOp.fnDef) =
      ⟨sh.decls ++ funDecls sh.next_fun_handle fs, sh.next_fun_handle + fs.length,
        sh.next_global_handle⟩ := by
  induction fs generalizing sh with
  | nil => simp [Shader.runOps, funDecls]
  | cons f fs ihh =>
    simp only [List.map_cons, Shader.runOps, Shader.runOp, Shader.fn]
    rw [ihh]
    simp [funDecls, Shader.mk.injEq]
    omega

theorem inDecls_length (g : Nat) (tys : List Ty) :
    (inDecls g tys).length = tys.length := by
  induction tys generalizing g with
  | nil => simp [inDecls]
  | cons ty tys ihh => simp [inDecls, ihh]

theorem outDecls_length (g : Nat) (tys : List Ty) :
    (outDecls g tys).length = tys.length := by
  induction tys generalizing g with
  | nil => simp [outDecls]
  | cons ty tys ihh => simp [outDecls, ihh]

theorem constDecls_length (g : Nat) (cs : List (Ty × ErasedExpr)) :
    (constDecls g cs).length = cs.length := by
  induction cs generalizing g with
  | nil => simp [constDecls]
  | cons p cs ihh => cases p; simp [constDecls, ihh]

theorem funDecls_length (h : Nat) (fs : List ErasedFun) :
    (funDecls h fs).length = fs.length := by
  induction fs generalizing h with
  | nil => simp [funDecls]
  | cons f fs ihh => simp [funDecls, ihh]

theorem mainCount_append (ds es : List ShaderDecl) :
    mainCount (ds ++ es) = mainCount ds + mainCount es := by
  simp [mainCount, List.filter_append]

/-- Each registration call contributes to the `Main` count exactly when it
is a `main_fun` call. -/
theorem mainCount_runOps (ops : List ShaderOp) : ∀ sh : Shader,
    mainCount (Shader.runOps sh ops).decls
      = mainCount sh.decls + (ops.filter ShaderOp.isMainFun).length := by
  induction ops with
  | nil => intro sh; simp [Shader.runOps]
  | cons op ops ihh =>
    intro sh
    cases op with
    | input ty =>
      simp only [Shader.runOps, Shader.runOp, Shader.input]
      rw [ihh]
      simp [mainCount_append, mainCount, ShaderDecl.isMain, ShaderOp.isMainFun, List.filter]
    | output ty =>
      simp only [Shader.runOps, Shader.runOp, Shader.output]
      rw [ihh]
      simp [mainCount_append, mainCount, ShaderDecl.isMain, ShaderOp.isMainFun, List.filter]
    | constant ty e =>
      simp only [Shader.runOps, Shader.runOp, Shader.constant]
      rw [ihh]
      simp [mainCount_append, mainCount, ShaderDecl.isMain, ShaderOp.isMainFun, List.filter]
    | fnDef f =>
      simp only [Shader.runOps, Shader.runOp, Shader.fn]
      rw [ihh]
      simp [mainCount_append, mainCount, ShaderDecl.isMain, ShaderOp.isMainFun, List.filter]
    | mainFun f =>
      simp only [Shader.runOps, Shader.runOp, Shader.main_fun]
      rw [ihh]
      simp [mainCount_append, mainCount, ShaderDecl.isMain, ShaderOp.isMainFun, List.filter]
      omega

/-- C1: `Scope::var(init)` on a scope with id `s` and counter `n` appends
exactly one `VarDecl { T::ty(), FunVar { s, n }, erased(init) }` to the
scope's instruction list, returns a `Var` whose erased expression is
`MutVar(FunVar { s, n })`, and leaves `next_var` equal to `n + 1` (the id
is untouched). -/
theorem var_decl_spec (s : ErasedScope) (ty : Ty) (init : Expr) :
    (Scope.var s ty init).1.instructions
        = s.instructions
          ++ [ScopeInstr.VarDecl ty (ScopedHandle.FunVar s.id s.next_var) init.erased]
  ∧ (Scope.var s ty init).2.val.erased
        = ErasedExpr.MutVar (ScopedHandle.FunVar s.id s.next_var)
  ∧ (Scope.var s ty init).1.next_var = s.next_var + 1
  ∧ (Scope.var s ty init).1.id = s.id :=
  ⟨rfl, rfl, rfl, rfl⟩

/-- C2: `when(c, b).or_else(c2, b2).or(b3)` appends to the parent scope
exactly the three instructions `If`, `ElseIf`, `Else` in that order, each
holding the scope obtained by running the corresponding body closure on a
fresh scope with id `p.id + 1`; provided the bodies (which can only use
the scope API) preserve scope ids, each body scope has id `p.id + 1`. -/
theorem when_or_else_or_spec (p : ErasedScope) (c c2 : Expr)
    (b b2 b3 : ErasedScope → ErasedScope)
    (hb : ∀ t, (b t).id = t.id) (hb2 : ∀ t, (b2 t).id = t.id)
    (hb3 : ∀ t, (b3 t).id = t.id) :
    (When.or (When.or_else (Scope.when p c b) c2 b2) b3).instructions
        = p.instructions
          ++ [ScopeInstr.If c.erased (b (ErasedScope.new (p.id + 1))),
              ScopeInstr.ElseIf c2.erased (b2 (ErasedScope.new (p.id + 1))),
              ScopeInstr.Else (b3 (ErasedScope.new (p.id + 1)))]
  ∧ (b (ErasedScope.new (p.id + 1))).id = p.id + 1
  ∧ (b2 (ErasedScope.new (p.id + 1))).id = p.id + 1
  ∧ (b3 (ErasedScope.new (p.id + 1))).id = p.id + 1 := by
  refine ⟨?_, by simp [hb, ErasedScope.new], by simp [hb2, ErasedScope.new],
    by simp [hb3, ErasedScope.new]⟩
  simp [Scope.when, When.or_else, When.or, Scope.deeper, ErasedScope.push,
    ErasedScope.new, List.append_assoc]

/-- Witness for C2 at a concrete parent scope, conditions and bodies. -/
theorem when_or_else_or_spec_witness :
    (When.or (When.or_else
        (Scope.when (ErasedScope.new 0) (Expr.new (ErasedExpr.LitBool true)) id)
        (Expr.new (ErasedExpr.LitBool false)) id) id).instructions
        = (ErasedScope.new 0).instructions
          ++ [ScopeInstr.If (Expr.new (ErasedExpr.LitBool true)).erased
                (id (ErasedScope.new ((ErasedScope.new 0).id + 1))),
              ScopeInstr.ElseIf (Expr.new (ErasedExpr.LitBool false)).erased
                (id (ErasedScope.new ((ErasedScope.new 0).id + 1))),
              ScopeInstr.Else (id (ErasedScope.new ((ErasedScope.new 0).id + 1)))]
  ∧ (id (ErasedScope.new ((ErasedScope.new 0).id + 1))).id = (ErasedScope.new 0).id + 1
  ∧ (id (ErasedScope.new ((ErasedScope.new 0).id + 1))).id = (ErasedScope.new 0).id + 1
  ∧ (id (ErasedScope.new ((ErasedScope.new 0).id + 1))).id = (ErasedScope.new 0).id + 1 :=
  when_or_else_or_spec (ErasedScope.new 0) (Expr.new (ErasedExpr.LitBool true))
    (Expr.new (ErasedExpr.LitBool false)) id id id
    (fun _ => rfl) (fun _ => rfl) (fun _ => rfl)

/-- C3: `k` `input` calls, then `m` `output` calls, then `c` `constant`
calls, then `f` `fun` calls, then one `main_fun` call on a fresh `Shader`
produce `decls` of length `k + m + c + f + 1` in exactly that call order
(`In` block, `Out` block, `Const` block, `FunDef` block, `Main`), with
`next_global_handle = k + m + c` and `next_fun_handle = f`. -/
theorem shader_registration_order (ins outs : List Ty) (cs : List (Ty × ErasedExpr))
    (fs : List ErasedFun) (mainF : ErasedFun) :
    (Shader.runOps Shader.new
        (ins.map ShaderOp.input ++ outs.map ShaderOp.output
          ++ (cs.map fun p => ShaderOp.constant p.1 p.2) ++ fs.map ShaderOp.fnDef
          ++ [ShaderOp.mainFun mainF])).decls
        = inDecls 0 ins ++ outDecls ins.length outs
          ++ constDecls (ins.length + outs.length) cs ++ funDecls 0 fs
          ++ [ShaderDecl.Main mainF]
  ∧ (Shader.runOps Shader.new
        (ins.map ShaderOp.input ++ outs.map ShaderOp.output
          ++ (cs.map fun p => ShaderOp.constant p.1 p.2) ++ fs.map ShaderOp.fnDef
          ++ [ShaderOp.mainFun mainF])).decls.length
        = ins.length + outs.length + cs.length + fs.length + 1
  ∧ (Shader.runOps Shader.new
        (ins.map ShaderOp.input ++ outs.map ShaderOp.output
          ++ (cs.map fun p => ShaderOp.constant p.1 p.2) ++ fs.map ShaderOp.fnDef
          ++ [ShaderOp.mainFun mainF])).next_global_handle
        = ins.length + outs.length + cs.length
  ∧ (Shader.runOps Shader.new
        (ins.map ShaderOp.input ++ outs.map ShaderOp.output
          ++ (cs.map fun p => ShaderOp.constant p.1 p.2) ++ fs.map ShaderOp.fnDef
          ++ [ShaderOp.mainFun mainF])).next_fun_handle
        = fs.length := by
  have hrun : Shader.runOps Shader.new
      (ins.map ShaderOp.input ++ outs.map ShaderOp.output
        ++ (cs.map fun p => ShaderOp.constant p.1 p.2) ++ fs.map ShaderOp.fnDef
        ++ [ShaderOp.mainFun mainF])
      = ⟨inDecls 0 ins ++ outDecls ins.length outs
          ++ constDecls (ins.length + outs.length) cs ++ funDecls 0 fs
          ++ [ShaderDecl.Main mainF],
        fs.length, ins.length + outs.length + cs.length⟩ := by
    rw [Shader.runOps_append, Shader.runOps_append, Shader.runOps_append,
      Shader.runOps_append, Shader.runOps_inputs, Shader.runOps_outputs,
      Shader.runOps_constants, Shader.runOps_funs]
    simp [Shader.new, Shader.runOps, Shader.runOp, Shader.main_fun, List.append_assoc]
  rw [hrun]
  refine ⟨rfl, ?_, rfl, rfl⟩
  simp [inDecls_length, outDecls_length, constDecls_length, funDecls_length]
  omega

/-- C4: for each of the ten overloaded binary operators, the erased tree
is the same whichever operand is owned or borrowed, and lifting the raw
right operand automatically produces the identical tree to writing
`lit(b)` explicitly. -/
theorem binop_borrow_lift_invariance (op : BinOp) (a b : Expr) (v : RawValue) :
    binopRefOwn op a b = binopOwnOwn op a b
  ∧ binopOwnRef op a b = binopOwnOwn op a b
  ∧ binopRefRef op a b = binopOwnOwn op a b
  ∧ binopOwnLift op a v = binopOwnOwn op a (Expr.fromRaw v)
  ∧ binopRefLift op a v = binopOwnOwn op a (Expr.fromRaw v) := by
  simp [binopRefOwn, binopOwnRef, binopRefRef, binopOwnLift, binopRefLift,
    binopOwnOwn, ErasedExpr.clone_eq]

/-- C5: `deeper` (used by every block-forming construct to create the body
scope) yields id parent + 1; consequently, in any scope reachable through
the builder API, a directly nested scope has id exactly one more than its
container, and any transitively nested scope has a strictly greater id. -/
theorem subscope_id_increases (i : Nat) (s sub : ErasedScope) (h : Builds i s) :
    (Scope.deeper s).id = s.id + 1
  ∧ (DirectNested sub s → sub.id = s.id + 1)
  ∧ (Nested sub s → s.id < sub.id) := by
  refine ⟨rfl, ?_, ?_⟩
  · intro hd
    have hsub := h.direct_nested hd
    have h1 := h.id_eq
    have h2 := hsub.id_eq
    omega
  · intro hn
    exact Builds.nested_id_lt hn i h

/-- A concrete two-level scope: an `If` with an empty body scope pushed
onto a fresh scope of id 0. -/
def demoScope : ErasedScope :=
  (ErasedScope.new 0).push (ScopeInstr.If (ErasedExpr.LitBool true) (ErasedScope.new 1))

/-- Witness for C5 at the concrete scope `demoScope`. -/
theorem subscope_id_increases_witness :
    (Scope.deeper demoScope).id = demoScope.id + 1
  ∧ (ErasedScope.new 1).id = demoScope.id + 1
  ∧ demoScope.id < (ErasedScope.new 1).id := by
  have hb : Builds 0 demoScope :=
    Builds.ifInstr 0 (ErasedScope.new 0) (ErasedExpr.LitBool true) (ErasedScope.new 1)
      (Builds.new 0) (Builds.new 1)
  have hd : DirectNested (ErasedScope.new 1) demoScope :=
    ⟨ScopeInstr.If (ErasedExpr.LitBool true) (ErasedScope.new 1),
      by simp [demoScope, ErasedScope.push, ErasedScope.new],
      by simp [ScopeInstr.subscopes]⟩
  have h := subscope_id_increases 0 demoScope (ErasedScope.new 1) hb
  exact ⟨h.1, h.2.1 hd, h.2.2 (Nested.direct (ErasedScope.new 1) demoScope hd)⟩

/-- C6: `loop_for(init, cond_fn, step_fn, body_fn)` appends exactly one
`For` instruction to the parent; its sub-scope has id `parent.id + 1` and
starts with the induction `VarDecl` at `FunVar { parent.id + 1, 0 }`
initialized from `init`, followed by exactly what the body appended (the
hypotheses say the body — which can only use the scope API — appends
`tail` and preserves the id). -/
theorem loop_for_spec (s : ErasedScope) (ty : Ty) (init : Expr)
    (condition iter_fold : Expr → Expr) (body : ErasedScope → Expr → ErasedScope)
    (tail : List ScopeInstr) (sub : ErasedScope) (v : Expr)
    (hv : v = (Scope.var (Scope.deeper s) ty init).2.val)
    (hsub : sub = body (Scope.var (Scope.deeper s) ty init).1 v)
    (hid : sub.id = s.id + 1)
    (happ : sub.instructions
      = (Scope.var (Scope.deeper s) ty init).1.instructions ++ tail) :
    (Scope.loop_for s ty init condition iter_fold body).instructions
        = s.instructions
          ++ [ScopeInstr.For ty (ScopedHandle.FunVar (s.id + 1) 0)
                (ErasedExpr.MutVar (ScopedHandle.FunVar (s.id + 1) 0))
                (condition v).erased (iter_fold v).erased sub]
  ∧ sub.instructions
        = ScopeInstr.VarDecl ty (ScopedHandle.FunVar (s.id + 1) 0) init.erased :: tail := by
  constructor
  · simp only [Scope.loop_for, ErasedScope.push, ← hv, ← hsub, hid]
    simp [Scope.var, Scope.deeper, ErasedScope.new, Var.new, Var.to_expr, Expr.clone,
      Expr.new, ErasedExpr.clone, hv]
  · rw [happ]
    simp [Scope.var, Scope.deeper, ErasedScope.new, ErasedScope.push]

/-- Witness for C6 at concrete inputs (an `i32` induction variable
starting at 0 and a body that appends nothing). -/
theorem loop_for_spec_witness :
    (Scope.loop_for (ErasedScope.new 0) (Ty.mk (PrimType.Int Dim.Scalar) [])
        (Expr.new (ErasedExpr.LitInt 0))
        (fun w => Expr.new (ErasedExpr.Lt w.erased (ErasedExpr.LitInt 10)))
        (fun w => Expr.new (ErasedExpr.Add w.erased (ErasedExpr.LitInt 1)))
        (fun sc _ => sc)).instructions
        = (ErasedScope.new 0).instructions
          ++ [ScopeInstr.For (Ty.mk (PrimType.Int Dim.Scalar) [])
                (ScopedHandle.FunVar ((ErasedScope.new 0).id + 1) 0)
                (ErasedExpr.MutVar (ScopedHandle.FunVar ((ErasedScope.new 0).id + 1) 0))
                ((fun (w : Expr) => Expr.new (ErasedExpr.Lt w.erased (ErasedExpr.LitInt 10)))
                  (Scope.var (Scope.deeper (ErasedScope.new 0))
                    (Ty.mk (PrimType.Int Dim.Scalar) [])
                    (Expr.new (ErasedExpr.LitInt 0))).2.val).erased
                ((fun (w : Expr) => Expr.new (ErasedExpr.Add w.erased (ErasedExpr.LitInt 1)))
                  (Scope.var (Scope.deeper (ErasedScope.new 0))
                    (Ty.mk (PrimType.Int Dim.Scalar) [])
                    (Expr.new (ErasedExpr.LitInt 0))).2.val).erased
                (Scope.var (Scope.deeper (ErasedScope.new 0))
                  (Ty.mk (PrimType.Int Dim.Scalar) [])
                  (Expr.new (ErasedExpr.LitInt 0))).1]
  ∧ (Scope.var (Scope.deeper (ErasedScope.new 0)) (Ty.mk (PrimType.Int Dim.Scalar) [])
        (Expr.new (ErasedExpr.LitInt 0))).1.instructions
        = ScopeInstr.VarDecl (Ty.mk (PrimType.Int Dim.Scalar) [])
            (ScopedHandle.FunVar ((ErasedScope.new 0).id + 1) 0)
            (Expr.new (ErasedExpr.LitInt 0)).erased :: [] :=
  loop_for_spec (ErasedScope.new 0) (Ty.mk (PrimType.Int Dim.Scalar) [])
    (Expr.new (ErasedExpr.LitInt 0))
    (fun w => Expr.new (ErasedExpr.Lt w.erased (ErasedExpr.LitInt 10)))
    (fun w => Expr.new (ErasedExpr.Add w.erased (ErasedExpr.LitInt 1)))
    (fun sc _ => sc) []
    (Scope.var (Scope.deeper (ErasedScope.new 0)) (Ty.mk (PrimType.Int Dim.Scalar) [])
      (Expr.new (ErasedExpr.LitInt 0))).1
    (Scope.var (Scope.deeper (ErasedScope.new 0)) (Ty.mk (PrimType.Int Dim.Scalar) [])
      (Expr.new (ErasedExpr.LitInt 0))).2.val
    rfl rfl (by simp [Scope.var, Scope.deeper, ErasedScope.new, ErasedScope.push])
    (by simp)

/-- C7 (amended): a shader's `decls` list contains exactly one `Main`
declaration per `main_fun` call made by the host closure; no other
registration method contributes a `Main`. -/
theorem main_count_eq_main_fun_calls (ops : List ShaderOp) :
    mainCount (Shader.runOps Shader.new ops).decls
      = (ops.filter ShaderOp.isMainFun).length := by
  rw [mainCount_runOps ops Shader.new]
  simp [Shader.new, mainCount]

/-- The empty void function (`|s| {}` passed to `main_fun`). -/
def emptyErasedFun : ErasedFun :=
  ⟨[], ErasedScope.new 0, ErasedReturn.Void⟩

/-- Counterexample to C7 as stated: the host closure may call `main_fun`
twice, and the resulting shader then holds two `Main` declarations. -/
theorem two_main_fun_two_main_decls :
    mainCount (Shader.runOps Shader.new
        [ShaderOp.mainFun emptyErasedFun, ShaderOp.mainFun emptyErasedFun]).decls = 2
  ∧ ¬ mainCount (Shader.runOps Shader.new
        [ShaderOp.mainFun emptyErasedFun, ShaderOp.mainFun emptyErasedFun]).decls ≤ 1 := by
  exact ⟨rfl, by decide⟩

/-- C8: the swizzle selector-extraction table maps the component letters
`w` and `a` to `SwizzleSelector::Z` (the third component), not to `W`;
hence the one-letter swizzle surface syntax on those letters builds a
`D1(Z)` node. -/
theorem sw_extract_w_a_to_Z (e : Expr) :
    sw_extract SwComponent.w = SwizzleSelector.Z
  ∧ sw_extract SwComponent.a = SwizzleSelector.Z
  ∧ swD1 e SwComponent.w
      = Expr.new (ErasedExpr.Swizzle e.erased (Swizzle.D1 SwizzleSelector.Z))
  ∧ SwizzleSelector.Z ≠ SwizzleSelector.W := by
  refine ⟨rfl, rfl, ?_, by decide⟩
  simp [swD1, ErasedExpr.clone_eq, sw_extract]

/-- C9: the tessellation-evaluation environment's `cull_distance` output is
built against the `ClipDistance` built-in, not `CullDistance`. -/
theorem tess_eval_cull_distance_is_clip :
    TessEvalShaderEnv.new.cull_distance
        = Var.new (ScopedHandle.BuiltIn (BuiltIn.TessEval TessEvalBuiltIn.ClipDistance))
  ∧ TessEvalShaderEnv.new.cull_distance
        ≠ Var.new (ScopedHandle.BuiltIn (BuiltIn.TessEval TessEvalBuiltIn.CullDistance)) := by
  constructor
  · rfl
  · intro hEq
    simp only [TessEvalShaderEnv.new, Var.new, Expr.new, Var.mk.injEq, Expr.mk.injEq,
      ErasedExpr.MutVar.injEq, ScopedHandle.BuiltIn.injEq, BuiltIn.TessEval.injEq] at hEq
    exact TessEvalBuiltIn.noConfusion hEq

/-- C10: every input field of the fragment-stage environment is built with
`new_builtin`, i.e. its erased form is the `MutVar(BuiltIn(..))` node —
unlike the read-only inputs of the vertex, tessellation, and geometry
stage environments, which are `ImmutBuiltIn` nodes. -/
theorem fragment_inputs_are_mutvar :
    FragmentShaderEnv.new.frag_coord.erased
        = ErasedExpr.MutVar (ScopedHandle.BuiltIn (BuiltIn.Fragment FragmentBuiltIn.FragCoord))
  ∧ FragmentShaderEnv.new.front_facing.erased
        = ErasedExpr.MutVar (ScopedHandle.BuiltIn (BuiltIn.Fragment FragmentBuiltIn.FrontFacing))
  ∧ FragmentShaderEnv.new.clip_distance.erased
        = ErasedExpr.MutVar (ScopedHandle.BuiltIn (BuiltIn.Fragment FragmentBuiltIn.ClipDistance))
  ∧ FragmentShaderEnv.new.cull_distance.erased
        = ErasedExpr.MutVar (ScopedHandle.BuiltIn (BuiltIn.Fragment FragmentBuiltIn.CullDistance))
  ∧ FragmentShaderEnv.new.point_coord.erased
        = ErasedExpr.MutVar (ScopedHandle.BuiltIn (BuiltIn.Fragment FragmentBuiltIn.PointCoord))
  ∧ FragmentShaderEnv.new.primitive_id.erased
        = ErasedExpr.MutVar (ScopedHandle.BuiltIn (BuiltIn.Fragment FragmentBuiltIn.PrimitiveID))
  ∧ FragmentShaderEnv.new.sample_id.erased
        = ErasedExpr.MutVar (ScopedHandle.BuiltIn (BuiltIn.Fragment FragmentBuiltIn.SampleID))
  ∧ FragmentShaderEnv.new.sample_position.erased
        = ErasedExpr.MutVar (ScopedHandle.BuiltIn (BuiltIn.Fragment FragmentBuiltIn.SamplePosition))
  ∧ FragmentShaderEnv.new.sample_mask_in.erased
        = ErasedExpr.MutVar (ScopedHandle.BuiltIn (BuiltIn.Fragment FragmentBuiltIn.SampleMaskIn))
  ∧ FragmentShaderEnv.new.layer.erased
        = ErasedExpr.MutVar (ScopedHandle.BuiltIn (BuiltIn.Fragment FragmentBuiltIn.Layer))
  ∧ FragmentShaderEnv.new.viewport_index.erased
        = ErasedExpr.MutVar (ScopedHandle.BuiltIn (BuiltIn.Fragment FragmentBuiltIn.ViewportIndex))
  ∧ FragmentShaderEnv.new.helper_invocation.erased
        = ErasedExpr.MutVar (ScopedHandle.BuiltIn (BuiltIn.Fragment FragmentBuiltIn.HelperInvocation))
  ∧ VertexShaderEnv.new.vertex_id.erased
        = ErasedExpr.ImmutBuiltIn (BuiltIn.Vertex VertexBuiltIn.VertexID)
  ∧ TessCtrlShaderEnv.new.primitive_id.erased
        = ErasedExpr.ImmutBuiltIn (BuiltIn.TessCtrl TessCtrlBuiltIn.PrimitiveID)
  ∧ TessEvalShaderEnv.new.primitive_id.erased
        = ErasedExpr.ImmutBuiltIn (BuiltIn.TessEval TessEvalBuiltIn.PrimitiveID)
  ∧ GeometryShaderEnv.new.invocation_id.erased
        = ErasedExpr.ImmutBuiltIn (BuiltIn.Geometry GeometryBuiltIn.InvocationID) :=
  ⟨rfl, rfl, rfl, rfl, rfl, rfl, rfl, rfl, rfl, rfl, rfl, rfl, rfl, rfl, rfl, rfl⟩

end Shades
